import Mathlib

/-!
# A shallow embedding of the MeTube Manager feed-polling engine

This file models `custom_components/metube_manager/__init__.py`, in
particular the poll cycle `_metube_poll_feeds`, the feed normalizer
`_metube_normalize_feed` and the statistics updater
`_metube_update_feed_stats`, as pure Lean functions, and proves the
specification claims about them.

Modelling conventions:
* Python sets of strings are modelled as duplicate-free-by-insertion
  lists (`List String`); membership tests mirror Python `in`.
* The outside world (HTTP GET of a feed, feedparser, yt-dlp catalog
  listing, POST to the MeTube `/add` endpoint) is an `Env` of pure
  functions from the request to its outcome; a poll cycle is then a
  deterministic function of the environment, the current time, the
  configuration and the loaded persisted document.
* Timestamps are natural numbers; each cycle uses one timestamp `now`
  (the code calls `datetime.now` at each stats update within a cycle;
  collapsing those to one value per cycle is the only abstraction).
* Exceptions that the Python code catches are modelled by the outcome
  constructors (`transportError`, a parse result of `none`, ...); the
  catch-and-continue structure of the code becomes the corresponding
  branch of the model.
* Observable events are recorded in traces: `subs` is the list of
  bodies POSTed to `/add`, `saves` the list of payloads passed to
  `store.async_save` (fields optional, mirroring the dict the code
  builds), and `backlogRuns` the feeds for which the backlog branch
  executed (mirroring the "Fetching ... backlog" log lines).
-/

namespace MeTube

/-- Python `str.strip()`: remove leading and trailing whitespace. -/
def pyStrip (s : String) : String :=
  String.mk (((s.data.dropWhile Char.isWhitespace).reverse.dropWhile
    Char.isWhitespace).reverse)

/-- Python `str.rstrip("/")`: remove trailing slashes. -/
def pyRstripSlash (s : String) : String :=
  String.mk ((s.data.reverse.dropWhile (fun c => c = '/')).reverse)

/-- Python `x or ""` on an optional string field (`dict.get` returns
`None` for a missing key; `None or ""` and `"" or ""` are both `""`). -/
def orEmpty (x : Option String) : String := x.getD ""

/-- Python `a or b` on strings: `b` when `a` is empty, else `a`. -/
def pyOrStr (a b : String) : String := if a = "" then b else a

/-- A raw element of the `rss_feeds` configuration list: a dict with
optional `url` / `name` / `backlog_playlist_url` keys, a legacy plain
string, or anything else. -/
inductive RawFeed where
  | dict (url name backlog : Option String)
  | str (s : String)
  | other
deriving DecidableEq, Repr

/-- The normalized feed descriptor `{url, name, backlog_playlist_url?}`
produced by `_metube_normalize_feed`. -/
structure FeedDescriptor where
  url : String
  name : String
  backlog_playlist_url : Option String
deriving DecidableEq, Repr

/-- Model of `_metube_normalize_feed`: turn a raw configuration element into a
descriptor, or `none` (Python `None`) when it is dropped. -/
def metube_normalize_feed : RawFeed → Option FeedDescriptor
  | .dict u n b =>
    let url := pyStrip (orEmpty u)
    let name := pyStrip (pyOrStr (pyOrStr (orEmpty n) url) "")
    let backlog := pyStrip (orEmpty b)
    if url = "" then none
    else some { url := url, name := name,
                backlog_playlist_url :=
                  if backlog = "" then none else some backlog }
  | .str s =>
    if pyStrip s = "" then none
    else some { url := pyStrip s, name := pyStrip s,
                backlog_playlist_url := none }
  | .other => none

/-- The per-feed statistics record `{last_fetched, total_sent}`. -/
structure FeedStat where
  last_fetched : Nat
  total_sent : Nat
deriving DecidableEq, Repr

/-- The `feed_stats` mapping from feed URL to its statistics, modelled
as an association list in Python-dict insertion order. -/
abbrev FeedStats := List (String × FeedStat)

/-- Lookup in a `feed_stats` mapping (first matching key). -/
def statLookup (stats : FeedStats) (feed_url : String) : Option FeedStat :=
  match stats with
  | [] => none
  | (k, v) :: rest => if k = feed_url then some v else statLookup rest feed_url

/-- Python dict assignment `stats[feed_url] = v`: replace in place if
present, append otherwise. -/
def setStat (stats : FeedStats) (feed_url : String) (v : FeedStat) : FeedStats :=
  match stats with
  | [] => [(feed_url, v)]
  | (k, w) :: rest =>
    if k = feed_url then (k, v) :: rest else (k, w) :: setStat rest feed_url v

/-- The `total_sent` recorded for a feed, `0` when absent. -/
def totalOf (stats : FeedStats) (feed_url : String) : Nat :=
  match statLookup stats feed_url with
  | some s => s.total_sent
  | none => 0

/-- Model of `_metube_update_feed_stats`: set `last_fetched` to the current time
and add `sent_count` to the running `total_sent` (default `0`). -/
def metube_update_feed_stats (now : Nat) (stats : FeedStats)
    (feed_url : String) (sent_count : Nat) : FeedStats :=
  setStat stats feed_url
    { last_fetched := now, total_sent := totalOf stats feed_url + sent_count }

/-- Outcome of an HTTP GET of a feed URL: a transport failure (any
exception from the request or from reading the body) or a response with
a status code and a body. -/
inductive FetchOutcome where
  | transportError
  | response (status : Nat) (body : String)

/-- Outcome of a POST to the `/add` endpoint. -/
inductive SubmitOutcome where
  | transportError
  | response (status : Nat)

/-- A parsed feed entry; `link` is the optional `link` field
(`item.get("link")`). -/
structure Entry where
  link : Option String
deriving DecidableEq, Repr

/-- The external world of one poll cycle: feed fetching, feed parsing
(`none` models `feedparser.parse` raising), yt-dlp catalog listing
(failure-tolerant: returns a list, `[]` on error) and submission. -/
structure Env where
  fetch : String → FetchOutcome
  parse : String → Option (List Entry)
  listCatalog : String → List String
  submit : String → SubmitOutcome

/-- Success of a submission: HTTP 200 or 201 (`add_resp.status in (200, 201)`). -/
def submitAccepted : SubmitOutcome → Bool
  | .transportError => false
  | .response status => status = 200 || status = 201

/-- The JSON body of one POST to the `/add` endpoint. -/
structure AddRequest where
  url : String
  quality : String
  format : String
deriving DecidableEq, Repr

/-- A payload passed to `store.async_save`; each field is present iff
the corresponding key is in the dict the code builds. -/
structure SavePayload where
  urls : Option (List String)
  backlog_done : Option (List String)
  feed_stats : Option FeedStats
deriving DecidableEq, Repr

/-- The persisted document `{urls, backlog_done, feed_stats}`. -/
structure PersistedDoc where
  urls : List String
  backlog_done : List String
  feed_stats : FeedStats
deriving DecidableEq, Repr

/-- The mutable state of one poll cycle, plus its observable traces. -/
structure CycleState where
  seen : List String
  backlog_done : List String
  feed_stats : FeedStats
  subs : List AddRequest
  saves : List SavePayload
  backlogRuns : List String
  pruned : Bool
deriving Repr

/-- The document the end-of-cycle save writes (the in-memory state). -/
def CycleState.doc (st : CycleState) : PersistedDoc :=
  { urls := st.seen, backlog_done := st.backlog_done, feed_stats := st.feed_stats }

/-- State threaded through one submission loop (over entries of a feed
or over catalog URLs): the seen set, this loop's accepted count, and
the global submission trace. -/
structure PassState where
  seen : List String
  sent : Nat
  subs : List AddRequest
deriving Repr

/-- The body shared by all three submission loops once the link is in
hand and known to be new: `seen.add(link)` happens before the POST, and
the accepted counter increments only on status 200/201. -/
def submitOne (env : Env) (quality : String) (st : PassState)
    (link : String) : PassState :=
  { seen := st.seen ++ [link]
    sent := st.sent + (if submitAccepted (env.submit link) then 1 else 0)
    subs := st.subs ++ [{ url := link, quality := quality, format := "mp4" }] }

/-- One iteration of the catalog-URL loop: `if not link or link in
seen: continue`, else mark seen and submit. -/
def processLink (env : Env) (quality : String) (st : PassState)
    (link : String) : PassState :=
  if link = "" ∨ link ∈ st.seen then st else submitOne env quality st link

/-- One iteration of a feed-entry loop: `link = (item.get("link") or
"").strip()`, then as `processLink`. -/
def processEntry (env : Env) (quality : String) (st : PassState)
    (item : Entry) : PassState :=
  processLink env quality st (pyStrip (orEmpty item.link))

/-- The backlog step for one feed (first pass of the cycle).  The
backlog branch runs when the feed has a non-empty backlog source not
yet marked done; an RSS backlog (`backlog == feed_url`) fetches and
parses the feed and, only if both succeed, submits the new entries and
marks backlog-done (`backlog_done.add` sits after the loop inside the
`try`, so a fetch/parse failure skips it); a playlist backlog lists the
catalog (failure-tolerant) and always marks backlog-done.  The stats
update at the end runs for every feed, on every path. -/
def backlogStep (env : Env) (quality : String) (now : Nat)
    (st : CycleState) (feed : FeedDescriptor) : CycleState :=
  let backlog_playlist := pyStrip (orEmpty feed.backlog_playlist_url)
  if backlog_playlist ≠ "" ∧ feed.url ∉ st.backlog_done then
    if backlog_playlist = feed.url then
      match env.fetch feed.url with
      | .transportError =>
        { st with backlogRuns := st.backlogRuns ++ [feed.url]
                  feed_stats := metube_update_feed_stats now st.feed_stats feed.url 0 }
      | .response status body =>
        if status ≠ 200 then
          { st with backlogRuns := st.backlogRuns ++ [feed.url]
                    feed_stats := metube_update_feed_stats now st.feed_stats feed.url 0 }
        else
          match env.parse body with
          | none =>
            { st with backlogRuns := st.backlogRuns ++ [feed.url]
                      feed_stats := metube_update_feed_stats now st.feed_stats feed.url 0 }
          | some entries =>
            let p := entries.foldl (processEntry env quality)
              { seen := st.seen, sent := 0, subs := st.subs }
            { st with
              seen := p.seen
              subs := p.subs
              backlog_done := st.backlog_done ++ [feed.url]
              backlogRuns := st.backlogRuns ++ [feed.url]
              feed_stats := metube_update_feed_stats now st.feed_stats feed.url p.sent }
    else
      let p := (env.listCatalog backlog_playlist).foldl (processLink env quality)
        { seen := st.seen, sent := 0, subs := st.subs }
      { st with
        seen := p.seen
        subs := p.subs
        backlog_done := st.backlog_done ++ [feed.url]
        backlogRuns := st.backlogRuns ++ [feed.url]
        feed_stats := metube_update_feed_stats now st.feed_stats feed.url p.sent }
  else
    { st with feed_stats := metube_update_feed_stats now st.feed_stats feed.url 0 }

/-- The incremental step for one feed (second pass of the cycle): a
transport failure, a non-200 status or a parse failure yields a
zero-submission stats update and moves on; a 200 response that parses
has its entries processed against the seen set. -/
def incrementalStep (env : Env) (quality : String) (now : Nat)
    (st : CycleState) (feed : FeedDescriptor) : CycleState :=
  if feed.url = "" then st
  else
    match env.fetch feed.url with
    | .transportError =>
      { st with feed_stats := metube_update_feed_stats now st.feed_stats feed.url 0 }
    | .response status body =>
      if status ≠ 200 then
        { st with feed_stats := metube_update_feed_stats now st.feed_stats feed.url 0 }
      else
        match env.parse body with
        | none =>
          { st with feed_stats := metube_update_feed_stats now st.feed_stats feed.url 0 }
        | some entries =>
          let p := entries.foldl (processEntry env quality)
            { seen := st.seen, sent := 0, subs := st.subs }
          { st with
            seen := p.seen
            subs := p.subs
            feed_stats := metube_update_feed_stats now st.feed_stats feed.url p.sent }

/-- The configuration consumed by one poll cycle. -/
structure Config where
  rawFeeds : List RawFeed
  metube_url : String
  quality : String

/-- The list comprehension `[f for f in (_metube_normalize_feed(x) for x in raw_feeds) if f]`. -/
def normalizeFeeds (raw : List RawFeed) : List FeedDescriptor :=
  raw.filterMap metube_normalize_feed

/-- The feed URLs of the current configuration. -/
def currentFeedUrls (cfg : Config) : List String :=
  (normalizeFeeds cfg.rawFeeds).map (fun f => f.url)

/-- The previously tracked feed URLs that vanished from the
configuration: `(set(feed_stats.keys()) | backlog_done) - current`. -/
def removedFeeds (cfg : Config) (d : PersistedDoc) : List String :=
  (d.feed_stats.map Prod.fst ++ d.backlog_done).filter
    (fun u => u ∉ currentFeedUrls cfg)

/-- The guard clauses of the poll: a MeTube base URL (after stripping
trailing slashes) and a non-empty normalized feed list. -/
def guardPass (cfg : Config) : Prop :=
  pyRstripSlash cfg.metube_url ≠ "" ∧ normalizeFeeds cfg.rawFeeds ≠ []

instance (cfg : Config) : Decidable (guardPass cfg) := by
  unfold guardPass; infer_instance

/-- The cycle state hydrated from the loaded document, before any pass
(the no-op result of the guard clauses has the same shape). -/
def hydrate (loaded : PersistedDoc) : CycleState :=
  { seen := loaded.urls, backlog_done := loaded.backlog_done
    feed_stats := loaded.feed_stats, subs := [], saves := []
    backlogRuns := [], pruned := false }

/-- The payload the prune step saves immediately: an empty URL list,
and the backlog markers and stats restricted to surviving feeds. -/
def prunePayload (cfg : Config) (loaded : PersistedDoc) : SavePayload :=
  { urls := some []
    backlog_done := some (loaded.backlog_done.filter (fun u => u ∈ currentFeedUrls cfg))
    feed_stats := some (loaded.feed_stats.filter (fun p => p.1 ∈ currentFeedUrls cfg)) }

/-- The state after the prune step fired: stats and backlog markers of
vanished feeds removed, the whole seen set cleared, and the pruned
document saved immediately. -/
def pruneState (cfg : Config) (loaded : PersistedDoc) : CycleState :=
  { seen := []
    backlog_done := loaded.backlog_done.filter (fun u => u ∈ currentFeedUrls cfg)
    feed_stats := loaded.feed_stats.filter (fun p => p.1 ∈ currentFeedUrls cfg)
    subs := []
    saves := [prunePayload cfg loaded]
    backlogRuns := [], pruned := true }

/-- Load-then-prune: the state the two passes start from. -/
def pollInit (cfg : Config) (loaded : PersistedDoc) : CycleState :=
  if removedFeeds cfg loaded = [] then hydrate loaded else pruneState cfg loaded

/-- The two passes: the backlog pass over all feeds, then the
incremental pass over all feeds. -/
def pollPasses (env : Env) (now : Nat) (cfg : Config) (st0 : CycleState) :
    CycleState :=
  (normalizeFeeds cfg.rawFeeds).foldl (incrementalStep env cfg.quality now)
    ((normalizeFeeds cfg.rawFeeds).foldl (backlogStep env cfg.quality now) st0)

/-- The payload of the end-of-cycle save: the full in-memory document. -/
def finalPayload (st : CycleState) : SavePayload :=
  { urls := some st.seen, backlog_done := some st.backlog_done
    feed_stats := some st.feed_stats }

/-- Model of `_metube_poll_feeds`: one poll cycle.  Guard clauses short-circuit
to a no-op; otherwise prune vanished feeds (clearing the whole seen set
and saving immediately), run the backlog pass over all feeds, run the
incremental pass over all feeds, and save the full document once at the
end. -/
def metube_poll_feeds (env : Env) (now : Nat) (cfg : Config)
    (loaded : PersistedDoc) : CycleState :=
  if pyRstripSlash cfg.metube_url = "" ∨ normalizeFeeds cfg.rawFeeds = [] then
    hydrate loaded
  else
    let st2 := pollPasses env now cfg (pollInit cfg loaded)
    { st2 with saves := st2.saves ++ [finalPayload st2] }

/-- Run a sequence of poll cycles, each loading the document the
previous cycle persisted; returns the concatenated submission trace,
the final persisted document, and whether any cycle pruned. -/
def runCycles : List (Env × Nat × Config) → PersistedDoc →
    List AddRequest × PersistedDoc × Bool
  | [], d => ([], d, false)
  | (env, now, cfg) :: rest, d =>
    let st := metube_poll_feeds env now cfg d
    let r := runCycles rest st.doc
    (st.subs ++ r.1, r.2.1, st.pruned || r.2.2)

/-! ## Concrete test fixtures -/

/-- The empty persisted document. -/
def emptyDoc : PersistedDoc := { urls := [], backlog_done := [], feed_stats := [] }

/-- Fixture: a single feed serving entries v1 and v2, all submissions
accepted. -/
def envTwoEntries : Env :=
  { fetch := fun u => if u = "https://x/feed" then .response 200 "B5" else .transportError
    parse := fun b =>
      if b = "B5" then
        some [{ link := some "https://x/v1" }, { link := some "https://x/v2" }]
      else none
    listCatalog := fun _ => []
    submit := fun _ => .response 200 }

/-- Fixture: one configured feed, no backlog source. -/
def cfgOneFeed : Config :=
  { rawFeeds := [.str "https://x/feed"], metube_url := "http://mt", quality := "best" }

/-- Fixture: a persisted document that has already seen v1. -/
def docV1 : PersistedDoc :=
  { urls := ["https://x/v1"], backlog_done := [], feed_stats := [] }

/-- Fixture: a feed whose fetch yields HTTP 201 with a parseable body
holding one fresh entry. -/
def envStatus201 : Env :=
  { fetch := fun _ => .response 201 "B4"
    parse := fun b => if b = "B4" then some [{ link := some "https://x/z" }] else none
    listCatalog := fun _ => []
    submit := fun _ => .response 200 }

/-- Fixture: feed A answers HTTP 500, feed B serves two fresh entries. -/
def envPartial : Env :=
  { fetch := fun u => if u = "https://fB" then .response 200 "BB" else .response 500 ""
    parse := fun b =>
      if b = "BB" then
        some [{ link := some "https://x/w1" }, { link := some "https://x/w2" }]
      else none
    listCatalog := fun _ => []
    submit := fun _ => .response 200 }

/-- Fixture: two configured feeds A and B. -/
def cfgTwoFeeds : Config :=
  { rawFeeds := [.str "https://fA", .str "https://fB"]
    metube_url := "http://mt", quality := "best" }

/-- Fixture: one feed with an RSS backlog (backlog source equal to the
feed URL). -/
def cfgRssBacklog : Config :=
  { rawFeeds := [.dict (some "https://f") none (some "https://f")]
    metube_url := "http://mt", quality := "best" }

/-- Fixture: every fetch answers HTTP 500. -/
def envFetch500 : Env :=
  { fetch := fun _ => .response 500 ""
    parse := fun _ => none
    listCatalog := fun _ => []
    submit := fun _ => .response 200 }

/-- Fixture: every fetch succeeds with a one-entry feed. -/
def envFetchOk : Env :=
  { fetch := fun _ => .response 200 "B3"
    parse := fun b => if b = "B3" then some [{ link := some "https://x/y" }] else none
    listCatalog := fun _ => []
    submit := fun _ => .response 200 }

/-- Fixture: the feed serves v1 and v2 but every submission is rejected
with HTTP 503. -/
def envReject503 : Env :=
  { fetch := fun u => if u = "https://x/feed" then .response 200 "B5" else .transportError
    parse := fun b =>
      if b = "B5" then
        some [{ link := some "https://x/v1" }, { link := some "https://x/v2" }]
      else none
    listCatalog := fun _ => []
    submit := fun _ => .response 503 }

/-- Fixture: a persisted document tracking a feed no longer configured. -/
def docStale : PersistedDoc :=
  { urls := ["https://old/v"], backlog_done := ["https://gone"]
    feed_stats := [("https://gone", { last_fetched := 1, total_sent := 4 })] }

/-! ## The extension relation

`Extends q st st'` says `st'` is reachable from `st` by submitting a
list of fresh, pairwise-distinct links: exactly the discipline every
submission loop of the poll follows. -/

def Extends (q : String) (st st' : CycleState) : Prop :=
  ∃ new : List String,
    st'.seen = st.seen ++ new ∧
    st'.subs = st.subs ++ new.map (fun l => AddRequest.mk l q "mp4") ∧
    new.Nodup ∧ (∀ l ∈ new, l ∉ st.seen)

/-! ## Lemmas about the statistics mapping -/

theorem statLookup_setStat_self (stats : FeedStats) (u : String) (v : FeedStat) :
    statLookup (setStat stats u v) u = some v := by
  induction stats with
  | nil => simp [setStat, statLookup]
  | cons p rest ih =>
    by_cases h : p.1 = u
    · simp [setStat, statLookup, h]
    · simp [setStat, statLookup, h, ih]

theorem statLookup_setStat_other (stats : FeedStats) (u w : String) (v : FeedStat)
    (h : w ≠ u) : statLookup (setStat stats u v) w = statLookup stats w := by
  induction stats with
  | nil =>
    simp only [setStat, statLookup]
    rw [if_neg (fun e => h e.symm)]
  | cons p rest ih =>
    by_cases hp : p.1 = u
    · have h' : ¬p.1 = w := by rw [hp]; exact fun e => h e.symm
      simp only [setStat, if_pos hp, statLookup, if_neg h']
    · simp only [setStat, if_neg hp, statLookup]
      by_cases hw : p.1 = w
      · simp [hw]
      · simp [hw, ih]

theorem statLookup_update_self (now : Nat) (stats : FeedStats) (u : String) (c : Nat) :
    statLookup (metube_update_feed_stats now stats u c) u =
      some { last_fetched := now, total_sent := totalOf stats u + c } := by
  unfold metube_update_feed_stats
  exact statLookup_setStat_self ..

theorem statLookup_update_other (now : Nat) (stats : FeedStats) (u w : String)
    (c : Nat) (h : w ≠ u) :
    statLookup (metube_update_feed_stats now stats u c) w = statLookup stats w := by
  unfold metube_update_feed_stats
  exact statLookup_setStat_other _ _ _ _ h

/-- A zero-count stats update never changes any feed's running total. -/
theorem totalOf_update_zero (now : Nat) (stats : FeedStats) (u w : String) :
    totalOf (metube_update_feed_stats now stats u 0) w = totalOf stats w := by
  by_cases h : w = u
  · subst h
    simp [totalOf, statLookup_update_self]
  · simp [totalOf, statLookup_update_other now stats u w 0 h]

/-- A stats update stamps its own feed with the current time. -/
theorem update_fresh_self (now : Nat) (stats : FeedStats) (u : String) (c : Nat) :
    (statLookup (metube_update_feed_stats now stats u c) u).map
      FeedStat.last_fetched = some now := by
  simp [statLookup_update_self]

/-- A stats update within the same cycle preserves freshness of every feed. -/
theorem update_fresh_preserve (now : Nat) (stats : FeedStats) (u v : String) (c : Nat)
    (h : (statLookup stats u).map FeedStat.last_fetched = some now) :
    (statLookup (metube_update_feed_stats now stats v c) u).map
      FeedStat.last_fetched = some now := by
  by_cases huv : u = v
  · subst huv; exact update_fresh_self ..
  · rw [statLookup_update_other now stats v u c huv]; exact h

/-! ## The submission-loop fold specification

Every submission loop only ever appends to the seen set and to the
submission trace, in lockstep: there is a list `new` of fresh links,
each not previously seen and pairwise distinct, that is appended to the
seen set, submitted in order, and counted exactly when accepted. -/

theorem foldl_processLink_spec (env : Env) (q : String) (L : List String)
    (s : PassState) :
    ∃ new : List String,
      (L.foldl (processLink env q) s).seen = s.seen ++ new ∧
      (L.foldl (processLink env q) s).subs =
        s.subs ++ new.map (fun l => AddRequest.mk l q "mp4") ∧
      (L.foldl (processLink env q) s).sent =
        s.sent + (new.filter (fun l => submitAccepted (env.submit l))).length ∧
      new.Nodup ∧ (∀ l ∈ new, l ∉ s.seen) := by
  induction L generalizing s with
  | nil => exact ⟨[], by simp⟩
  | cons x xs ih =>
    simp only [List.foldl_cons]
    by_cases hx : x = "" ∨ x ∈ s.seen
    · rw [processLink, if_pos hx]
      exact ih s
    · rw [processLink, if_neg hx]
      obtain ⟨new, h1, h2, h3, h4, h5⟩ := ih (submitOne env q s x)
      push_neg at hx
      refine ⟨x :: new, ?_, ?_, ?_, ?_, ?_⟩
      · rw [h1]; simp [submitOne]
      · rw [h2]; simp [submitOne]
      · rw [h3]
        simp only [submitOne, List.filter_cons]
        by_cases hacc : submitAccepted (env.submit x)
        · simp [hacc]; omega
        · simp [hacc]
      · refine List.nodup_cons.mpr ⟨?_, h4⟩
        intro hmem
        have := h5 x hmem
        simp [submitOne] at this
      · intro l hl
        rcases List.mem_cons.mp hl with h | h
        · subst h; exact hx.2
        · have := h5 l h
          simp [submitOne] at this
          exact this.1

theorem foldl_processEntry_eq (env : Env) (q : String) (L : List Entry)
    (s : PassState) :
    L.foldl (processEntry env q) s =
      (L.map (fun e => pyStrip (orEmpty e.link))).foldl (processLink env q) s := by
  rw [List.foldl_map]
  rfl

theorem foldl_processEntry_spec (env : Env) (q : String) (L : List Entry)
    (s : PassState) :
    ∃ new : List String,
      (L.foldl (processEntry env q) s).seen = s.seen ++ new ∧
      (L.foldl (processEntry env q) s).subs =
        s.subs ++ new.map (fun l => AddRequest.mk l q "mp4") ∧
      (L.foldl (processEntry env q) s).sent =
        s.sent + (new.filter (fun l => submitAccepted (env.submit l))).length ∧
      new.Nodup ∧ (∀ l ∈ new, l ∉ s.seen) := by
  rw [foldl_processEntry_eq]
  exact foldl_processLink_spec ..

/-! ## Per-step structure lemmas -/

/-- The backlog step touches neither the save trace nor the prune flag. -/
theorem backlogStep_saves_pruned (env : Env) (q : String) (now : Nat)
    (st : CycleState) (f : FeedDescriptor) :
    (backlogStep env q now st f).saves = st.saves ∧
      (backlogStep env q now st f).pruned = st.pruned := by
  unfold backlogStep
  dsimp only
  repeat' split
  all_goals exact ⟨rfl, rfl⟩

/-- The incremental step touches neither the save trace nor the prune
flag, nor the backlog-done set, nor the backlog-run trace. -/
theorem incrementalStep_frame (env : Env) (q : String) (now : Nat)
    (st : CycleState) (f : FeedDescriptor) :
    (incrementalStep env q now st f).saves = st.saves ∧
      (incrementalStep env q now st f).pruned = st.pruned ∧
      (incrementalStep env q now st f).backlog_done = st.backlog_done ∧
      (incrementalStep env q now st f).backlogRuns = st.backlogRuns := by
  unfold incrementalStep
  dsimp only
  repeat' split
  all_goals exact ⟨rfl, rfl, rfl, rfl⟩

/-- The backlog step either leaves the backlog-done set alone or
appends its own feed URL. -/
theorem backlogStep_backlog_done (env : Env) (q : String) (now : Nat)
    (st : CycleState) (f : FeedDescriptor) :
    (backlogStep env q now st f).backlog_done = st.backlog_done ∨
      (backlogStep env q now st f).backlog_done = st.backlog_done ++ [f.url] := by
  unfold backlogStep
  dsimp only
  repeat' split
  all_goals first | exact Or.inl rfl | exact Or.inr rfl

/-- The backlog step runs (appends to the backlog-run trace) only for
its own feed URL, and only when that URL is not yet backlog-done. -/
theorem backlogStep_backlogRuns (env : Env) (q : String) (now : Nat)
    (st : CycleState) (f : FeedDescriptor) :
    (backlogStep env q now st f).backlogRuns = st.backlogRuns ∨
      ((backlogStep env q now st f).backlogRuns = st.backlogRuns ++ [f.url] ∧
        f.url ∉ st.backlog_done) := by
  unfold backlogStep
  dsimp only
  split
  case isTrue h =>
    repeat' split
    all_goals exact Or.inr ⟨rfl, h.2⟩
  case isFalse => exact Or.inl rfl

/-- Every branch of the backlog step ends in a stats update for its own
feed URL (the update after the backlog block is unconditional). -/
theorem backlogStep_feed_stats (env : Env) (q : String) (now : Nat)
    (st : CycleState) (f : FeedDescriptor) :
    ∃ k, (backlogStep env q now st f).feed_stats =
      metube_update_feed_stats now st.feed_stats f.url k := by
  unfold backlogStep
  dsimp only
  repeat' split
  all_goals exact ⟨_, rfl⟩

/-- The incremental step either leaves the stats alone (empty feed URL)
or updates its own feed URL. -/
theorem incrementalStep_feed_stats (env : Env) (q : String) (now : Nat)
    (st : CycleState) (f : FeedDescriptor) :
    (incrementalStep env q now st f).feed_stats = st.feed_stats ∨
      ∃ k, (incrementalStep env q now st f).feed_stats =
        metube_update_feed_stats now st.feed_stats f.url k := by
  unfold incrementalStep
  dsimp only
  repeat' split
  all_goals first | exact Or.inl rfl | exact Or.inr ⟨_, rfl⟩

theorem Extends.of_eq (q : String) (st st' : CycleState)
    (hseen : st'.seen = st.seen) (hsubs : st'.subs = st.subs) :
    Extends q st st' :=
  ⟨[], by simp [hseen, hsubs]⟩

theorem Extends.trans (q : String) (s₁ s₂ s₃ : CycleState)
    (h₁ : Extends q s₁ s₂) (h₂ : Extends q s₂ s₃) : Extends q s₁ s₃ := by
  obtain ⟨n₁, e₁, u₁, d₁, f₁⟩ := h₁
  obtain ⟨n₂, e₂, u₂, d₂, f₂⟩ := h₂
  refine ⟨n₁ ++ n₂, ?_, ?_, ?_, ?_⟩
  · rw [e₂, e₁, List.append_assoc]
  · rw [u₂, u₁, List.map_append, List.append_assoc]
  · refine List.Nodup.append d₁ d₂ ?_
    intro a ha₁ ha₂
    have := f₂ a ha₂
    rw [e₁] at this
    exact this (List.mem_append.mpr (Or.inr ha₁))
  · intro l hl
    rcases List.mem_append.mp hl with h | h
    · exact f₁ l h
    · have := f₂ l h
      rw [e₁] at this
      exact fun hmem => this (List.mem_append.mpr (Or.inl hmem))

/-- A submission loop extends the cycle state. -/
theorem backlogStep_extends (env : Env) (q : String) (now : Nat)
    (st : CycleState) (f : FeedDescriptor) :
    Extends q st (backlogStep env q now st f) := by
  unfold backlogStep
  dsimp only
  repeat' split
  · exact Extends.of_eq _ _ _ rfl rfl
  · exact Extends.of_eq _ _ _ rfl rfl
  · exact Extends.of_eq _ _ _ rfl rfl
  · obtain ⟨new, h1, h2, _, h4, h5⟩ := foldl_processEntry_spec env q _
      { seen := st.seen, sent := 0, subs := st.subs }
    exact ⟨new, h1, h2, h4, h5⟩
  · obtain ⟨new, h1, h2, _, h4, h5⟩ := foldl_processLink_spec env q _
      { seen := st.seen, sent := 0, subs := st.subs }
    exact ⟨new, h1, h2, h4, h5⟩
  · exact Extends.of_eq _ _ _ rfl rfl

theorem incrementalStep_extends (env : Env) (q : String) (now : Nat)
    (st : CycleState) (f : FeedDescriptor) :
    Extends q st (incrementalStep env q now st f) := by
  unfold incrementalStep
  dsimp only
  repeat' split
  · exact Extends.of_eq _ _ _ rfl rfl
  · exact Extends.of_eq _ _ _ rfl rfl
  · exact Extends.of_eq _ _ _ rfl rfl
  · exact Extends.of_eq _ _ _ rfl rfl
  · obtain ⟨new, h1, h2, _, h4, h5⟩ := foldl_processEntry_spec env q _
      { seen := st.seen, sent := 0, subs := st.subs }
    exact ⟨new, h1, h2, h4, h5⟩

/-! ## Generic fold lemmas -/

theorem foldl_preserve {α : Type} {f : CycleState → α → CycleState}
    {P : CycleState → Prop} (hf : ∀ st x, P st → P (f st x)) :
    ∀ (L : List α) (st : CycleState), P st → P (L.foldl f st) := by
  intro L
  induction L with
  | nil => intro st h; exact h
  | cons x xs ih => intro st h; exact ih (f st x) (hf st x h)

theorem foldl_extends {α : Type} {q : String} {f : CycleState → α → CycleState}
    (hf : ∀ st x, Extends q st (f st x)) :
    ∀ (L : List α) (st : CycleState), Extends q st (L.foldl f st) := by
  intro L
  induction L with
  | nil => intro st; exact Extends.of_eq _ _ _ rfl rfl
  | cons x xs ih =>
    intro st
    exact Extends.trans q st (f st x) _ (hf st x) (ih (f st x))

/-! ## Pass- and cycle-level lemmas -/

theorem pollPasses_extends (env : Env) (now : Nat) (cfg : Config)
    (st0 : CycleState) : Extends cfg.quality st0 (pollPasses env now cfg st0) := by
  unfold pollPasses
  exact Extends.trans _ _ _ _
    (foldl_extends (fun st x => backlogStep_extends env cfg.quality now st x) _ st0)
    (foldl_extends (fun st x => incrementalStep_extends env cfg.quality now st x) _ _)

theorem pollPasses_frame (env : Env) (now : Nat) (cfg : Config)
    (st0 : CycleState) :
    (pollPasses env now cfg st0).saves = st0.saves ∧
      (pollPasses env now cfg st0).pruned = st0.pruned := by
  unfold pollPasses
  have hb : ∀ (st : CycleState) (x : FeedDescriptor),
      (st.saves = st0.saves ∧ st.pruned = st0.pruned) →
      ((backlogStep env cfg.quality now st x).saves = st0.saves ∧
        (backlogStep env cfg.quality now st x).pruned = st0.pruned) := by
    intro st x h
    obtain ⟨h1, h2⟩ := backlogStep_saves_pruned env cfg.quality now st x
    exact ⟨h1.trans h.1, h2.trans h.2⟩
  have hi : ∀ (st : CycleState) (x : FeedDescriptor),
      (st.saves = st0.saves ∧ st.pruned = st0.pruned) →
      ((incrementalStep env cfg.quality now st x).saves = st0.saves ∧
        (incrementalStep env cfg.quality now st x).pruned = st0.pruned) := by
    intro st x h
    obtain ⟨h1, h2, _, _⟩ := incrementalStep_frame env cfg.quality now st x
    exact ⟨h1.trans h.1, h2.trans h.2⟩
  exact foldl_preserve hi _ _ (foldl_preserve hb _ _ ⟨rfl, rfl⟩)

theorem poll_guard_fail (env : Env) (now : Nat) (cfg : Config) (d : PersistedDoc)
    (h : pyRstripSlash cfg.metube_url = "" ∨ normalizeFeeds cfg.rawFeeds = []) :
    metube_poll_feeds env now cfg d = hydrate d := by
  unfold metube_poll_feeds
  rw [if_pos h]

theorem poll_guard_pass (env : Env) (now : Nat) (cfg : Config) (d : PersistedDoc)
    (h : guardPass cfg) :
    metube_poll_feeds env now cfg d =
      { pollPasses env now cfg (pollInit cfg d) with
        saves := (pollPasses env now cfg (pollInit cfg d)).saves ++
          [finalPayload (pollPasses env now cfg (pollInit cfg d))] } := by
  unfold metube_poll_feeds
  rw [if_neg (fun hc => hc.elim h.1 h.2)]

theorem pollInit_subs (cfg : Config) (d : PersistedDoc) :
    (pollInit cfg d).subs = [] := by
  unfold pollInit hydrate pruneState
  split <;> rfl

theorem pollInit_no_prune (cfg : Config) (d : PersistedDoc)
    (h : removedFeeds cfg d = []) : pollInit cfg d = hydrate d := by
  unfold pollInit
  rw [if_pos h]

theorem pollInit_prune (cfg : Config) (d : PersistedDoc)
    (h : ¬removedFeeds cfg d = []) : pollInit cfg d = pruneState cfg d := by
  unfold pollInit
  rw [if_neg h]

/-- The workhorse for the dedup claims: a cycle that did not prune only
appends a list of fresh, pairwise-distinct links to the loaded seen
set, and its submission trace is exactly that list. -/
theorem poll_no_prune_spec (env : Env) (now : Nat) (cfg : Config)
    (d : PersistedDoc) (h : (metube_poll_feeds env now cfg d).pruned = false) :
    ∃ new : List String,
      (metube_poll_feeds env now cfg d).seen = d.urls ++ new ∧
      (metube_poll_feeds env now cfg d).subs =
        new.map (fun l => AddRequest.mk l cfg.quality "mp4") ∧
      new.Nodup ∧ (∀ l ∈ new, l ∉ d.urls) := by
  by_cases hg : pyRstripSlash cfg.metube_url = "" ∨ normalizeFeeds cfg.rawFeeds = []
  · rw [poll_guard_fail env now cfg d hg]
    exact ⟨[], by simp [hydrate], by simp [hydrate], List.nodup_nil, by simp⟩
  · have hg' : guardPass cfg := ⟨fun a => hg (Or.inl a), fun b => hg (Or.inr b)⟩
    rw [poll_guard_pass env now cfg d hg'] at h ⊢
    by_cases hrm : removedFeeds cfg d = []
    · rw [pollInit_no_prune cfg d hrm] at h ⊢
      obtain ⟨new, e, u, nd, fr⟩ := pollPasses_extends env now cfg (hydrate d)
      exact ⟨new, e, by rw [u]; rfl, nd, fr⟩
    · exfalso
      rw [pollInit_prune cfg d hrm] at h
      have hpr := (pollPasses_frame env now cfg (pruneState cfg d)).2
      have : (pruneState cfg d).pruned = true := rfl
      simp only [CycleState.pruned] at h
      rw [hpr, this] at h
      exact absurd h (by simp)

/-- Every submitted URL is in the seen set the cycle ends with (in every
case: guard no-op, pruned or not). -/
theorem poll_subs_seen (env : Env) (now : Nat) (cfg : Config) (d : PersistedDoc) :
    ∀ r ∈ (metube_poll_feeds env now cfg d).subs,
      r.url ∈ (metube_poll_feeds env now cfg d).seen := by
  by_cases hg : pyRstripSlash cfg.metube_url = "" ∨ normalizeFeeds cfg.rawFeeds = []
  · rw [poll_guard_fail env now cfg d hg]
    simp [hydrate]
  · have hg' : guardPass cfg := ⟨fun a => hg (Or.inl a), fun b => hg (Or.inr b)⟩
    rw [poll_guard_pass env now cfg d hg']
    obtain ⟨new, e, u, nd, fr⟩ := pollPasses_extends env now cfg (pollInit cfg d)
    intro r hr
    simp only [CycleState.subs, CycleState.seen] at hr ⊢
    rw [u, pollInit_subs, List.nil_append] at hr
    obtain ⟨l, hl, rfl⟩ := List.mem_map.mp hr
    show l ∈ _
    rw [e]
    exact List.mem_append_right _ hl

/-- The multi-cycle dedup invariant: over any chain of cycles none of
which prunes, the concatenated submission trace has pairwise-distinct
URLs, never resubmits a URL already in the loaded seen set, and the
final persisted seen set contains every submitted URL as well as the
initial seen set. -/
theorem runCycles_spec (cycles : List (Env × Nat × Config)) (d : PersistedDoc)
    (hp : (runCycles cycles d).2.2 = false) :
    ((runCycles cycles d).1.map AddRequest.url).Nodup ∧
    (∀ u ∈ d.urls, ∀ r ∈ (runCycles cycles d).1, r.url ≠ u) ∧
    (∀ r ∈ (runCycles cycles d).1, r.url ∈ (runCycles cycles d).2.1.urls) ∧
    (∀ u ∈ d.urls, u ∈ (runCycles cycles d).2.1.urls) := by
  induction cycles generalizing d with
  | nil => simp [runCycles]
  | cons c rest ih =>
    obtain ⟨env, now, cfg⟩ := c
    simp only [runCycles] at hp ⊢
    rcases Bool.or_eq_false_iff.mp hp with ⟨hp1, hp2⟩
    obtain ⟨new, e, u, nd, fr⟩ := poll_no_prune_spec env now cfg d hp1
    obtain ⟨ih1, ih2, ih3, ih4⟩ := ih (metube_poll_feeds env now cfg d).doc hp2
    have hdoc : (metube_poll_feeds env now cfg d).doc.urls = d.urls ++ new := e
    have hsubs_url : (metube_poll_feeds env now cfg d).subs.map AddRequest.url = new := by
      rw [u, List.map_map]
      have hcomp : (AddRequest.url ∘ fun l => AddRequest.mk l cfg.quality "mp4") =
          id := rfl
      rw [hcomp, List.map_id]
    refine ⟨?_, ?_, ?_, ?_⟩
    · rw [List.map_append, hsubs_url]
      refine List.Nodup.append nd ih1 ?_
      intro a ha hta
      obtain ⟨r, hr, rfl⟩ := List.mem_map.mp hta
      exact ih2 r.url (hdoc ▸ List.mem_append_right _ ha) r hr rfl
    · intro v hv r hr
      rcases List.mem_append.mp hr with h | h
      · rw [u] at h
        obtain ⟨l, hl, rfl⟩ := List.mem_map.mp h
        show l ≠ v
        exact fun hlv => fr l hl (hlv ▸ hv)
      · exact ih2 v (hdoc ▸ List.mem_append_left _ hv) r h
    · intro r hr
      rcases List.mem_append.mp hr with h | h
      · rw [u] at h
        obtain ⟨l, hl, rfl⟩ := List.mem_map.mp h
        exact ih4 _ (hdoc ▸ List.mem_append_right _ hl)
      · exact ih3 r h
    · intro v hv
      exact ih4 v (hdoc ▸ List.mem_append_left _ hv)

/-! ## When every submission is rejected, no total changes -/

theorem foldl_processLink_sent_rej (env : Env) (q : String)
    (hrej : ∀ v, submitAccepted (env.submit v) = false)
    (L : List String) (s : PassState) :
    (L.foldl (processLink env q) s).sent = s.sent := by
  obtain ⟨new, _, _, h3, _, _⟩ := foldl_processLink_spec env q L s
  rw [h3]
  have hnil : new.filter (fun l => submitAccepted (env.submit l)) = [] := by
    apply List.filter_eq_nil_iff.mpr
    intro a _
    simp [hrej a]
  simp [hnil]

theorem foldl_processEntry_sent_rej (env : Env) (q : String)
    (hrej : ∀ v, submitAccepted (env.submit v) = false)
    (L : List Entry) (s : PassState) :
    (L.foldl (processEntry env q) s).sent = s.sent := by
  rw [foldl_processEntry_eq]
  exact foldl_processLink_sent_rej env q hrej _ s

theorem backlogStep_totalOf_rej (env : Env) (q : String) (now : Nat)
    (st : CycleState) (f : FeedDescriptor)
    (hrej : ∀ v, submitAccepted (env.submit v) = false) (u : String) :
    totalOf (backlogStep env q now st f).feed_stats u = totalOf st.feed_stats u := by
  unfold backlogStep
  dsimp only
  repeat' split
  · exact totalOf_update_zero now st.feed_stats f.url u
  · exact totalOf_update_zero now st.feed_stats f.url u
  · exact totalOf_update_zero now st.feed_stats f.url u
  · rw [foldl_processEntry_sent_rej env q hrej]
    exact totalOf_update_zero now st.feed_stats f.url u
  · rw [foldl_processLink_sent_rej env q hrej]
    exact totalOf_update_zero now st.feed_stats f.url u
  · exact totalOf_update_zero now st.feed_stats f.url u

theorem incrementalStep_totalOf_rej (env : Env) (q : String) (now : Nat)
    (st : CycleState) (f : FeedDescriptor)
    (hrej : ∀ v, submitAccepted (env.submit v) = false) (u : String) :
    totalOf (incrementalStep env q now st f).feed_stats u = totalOf st.feed_stats u := by
  unfold incrementalStep
  dsimp only
  repeat' split
  · rfl
  · exact totalOf_update_zero now st.feed_stats f.url u
  · exact totalOf_update_zero now st.feed_stats f.url u
  · exact totalOf_update_zero now st.feed_stats f.url u
  · rw [foldl_processEntry_sent_rej env q hrej]
    exact totalOf_update_zero now st.feed_stats f.url u

/-- Under the guard clauses, a non-empty removed-feed set forces the
prune flag. -/
theorem poll_pruned_prune (env : Env) (now : Nat) (cfg : Config) (d : PersistedDoc)
    (hg : guardPass cfg) (hrm : ¬removedFeeds cfg d = []) :
    (metube_poll_feeds env now cfg d).pruned = true := by
  rw [poll_guard_pass env now cfg d hg]
  show (pollPasses env now cfg (pollInit cfg d)).pruned = true
  rw [(pollPasses_frame env now cfg (pollInit cfg d)).2, pollInit_prune cfg d hrm]
  rfl

/-- A cycle in which every submission is rejected (or fails in
transport) leaves every feed's running `total_sent` unchanged, as long
as it did not prune. -/
theorem poll_totalOf_rej (env : Env) (now : Nat) (cfg : Config) (d : PersistedDoc)
    (hrej : ∀ v, submitAccepted (env.submit v) = false)
    (hnp : (metube_poll_feeds env now cfg d).pruned = false) (u : String) :
    totalOf (metube_poll_feeds env now cfg d).feed_stats u =
      totalOf d.feed_stats u := by
  by_cases hg : pyRstripSlash cfg.metube_url = "" ∨ normalizeFeeds cfg.rawFeeds = []
  · rw [poll_guard_fail env now cfg d hg]
    rfl
  · have hg' : guardPass cfg := ⟨fun a => hg (Or.inl a), fun b => hg (Or.inr b)⟩
    by_cases hrm : removedFeeds cfg d = []
    · rw [poll_guard_pass env now cfg d hg', pollInit_no_prune cfg d hrm]
      show totalOf (pollPasses env now cfg (hydrate d)).feed_stats u =
        totalOf d.feed_stats u
      unfold pollPasses
      apply foldl_preserve
        (P := fun st => totalOf st.feed_stats u = totalOf d.feed_stats u)
        (fun st x h =>
          (incrementalStep_totalOf_rej env cfg.quality now st x hrej u).trans h)
      apply foldl_preserve
        (fun st x h =>
          (backlogStep_totalOf_rej env cfg.quality now st x hrej u).trans h)
      rfl
    · rw [poll_pruned_prune env now cfg d hg' hrm] at hnp
      exact Bool.noConfusion hnp

/-! ## Backlog-done marking -/

/-- Once a feed URL is backlog-done and not yet run, one backlog step
keeps it done and never runs it. -/
theorem backlogStep_done_inv (env : Env) (q : String) (now : Nat)
    (st : CycleState) (f : FeedDescriptor) (u : String)
    (h : u ∈ st.backlog_done ∧ u ∉ st.backlogRuns) :
    u ∈ (backlogStep env q now st f).backlog_done ∧
      u ∉ (backlogStep env q now st f).backlogRuns := by
  constructor
  · rcases backlogStep_backlog_done env q now st f with he | he
    · rw [he]; exact h.1
    · rw [he]; exact List.mem_append_left _ h.1
  · rcases backlogStep_backlogRuns env q now st f with he | ⟨he, hnd⟩
    · rw [he]; exact h.2
    · rw [he]
      intro hmem
      rcases List.mem_append.mp hmem with hm | hm
      · exact h.2 hm
      · rw [List.mem_singleton] at hm
        exact hnd (hm ▸ h.1)

/-- A playlist backlog (source different from the feed URL) always ends
the step marked backlog-done, regardless of submission outcomes. -/
theorem backlogStep_marks_playlist (env : Env) (q : String) (now : Nat)
    (st : CycleState) (f : FeedDescriptor)
    (hbp : pyStrip (orEmpty f.backlog_playlist_url) ≠ "")
    (hne : pyStrip (orEmpty f.backlog_playlist_url) ≠ f.url) :
    f.url ∈ (backlogStep env q now st f).backlog_done := by
  unfold backlogStep
  dsimp only
  by_cases hdone : f.url ∈ st.backlog_done
  · rw [if_neg (fun hc => hc.2 hdone)]
    exact hdone
  · rw [if_pos ⟨hbp, hdone⟩, if_neg hne]
    simp

/-- An RSS backlog whose fetch returns HTTP 200 and parses ends the
step marked backlog-done, regardless of submission outcomes. -/
theorem backlogStep_marks_rss_success (env : Env) (q : String) (now : Nat)
    (st : CycleState) (f : FeedDescriptor) (body : String) (es : List Entry)
    (hbp : pyStrip (orEmpty f.backlog_playlist_url) = f.url)
    (hne : f.url ≠ "")
    (hf : env.fetch f.url = .response 200 body)
    (hp : env.parse body = some es) :
    f.url ∈ (backlogStep env q now st f).backlog_done := by
  unfold backlogStep
  dsimp only
  by_cases hdone : f.url ∈ st.backlog_done
  · rw [if_neg (fun hc => hc.2 hdone)]
    exact hdone
  · rw [if_pos ⟨fun h => hne (hbp ▸ h), hdone⟩, if_pos hbp, hf]
    dsimp only
    rw [if_neg (by simp), hp]
    simp

/-- An RSS backlog whose fetch or parse fails leaves the backlog-done
set unchanged: the feed is not marked and will be eligible again. -/
theorem backlogStep_rss_fail_no_mark (env : Env) (q : String) (now : Nat)
    (st : CycleState) (f : FeedDescriptor)
    (hbp : pyStrip (orEmpty f.backlog_playlist_url) = f.url)
    (hfail : env.fetch f.url = .transportError ∨
      (∃ s b, env.fetch f.url = .response s b ∧ s ≠ 200) ∨
      (∃ b, env.fetch f.url = .response 200 b ∧ env.parse b = none)) :
    (backlogStep env q now st f).backlog_done = st.backlog_done := by
  unfold backlogStep
  dsimp only
  by_cases hcond : pyStrip (orEmpty f.backlog_playlist_url) ≠ "" ∧
      f.url ∉ st.backlog_done
  · rw [if_pos hcond, if_pos hbp]
    rcases hfail with h | ⟨s, b, h, hs⟩ | ⟨b, h, hpn⟩
    · rw [h]
    · rw [h]
      dsimp only
      rw [if_pos hs]
    · rw [h]
      dsimp only
      rw [if_neg (by simp), hpn]
  · rw [if_neg hcond]

/-- Generic establishment lemma: if a property of element `x` is
established by `x`'s own step and preserved by every step, it holds
after folding over any list containing `x`. -/
theorem foldl_establish_at {α : Type} {f : CycleState → α → CycleState}
    {P : CycleState → Prop} (x : α)
    (hpres : ∀ st y, P st → P (f st y))
    (hest : ∀ st, P (f st x)) :
    ∀ (L : List α) (st : CycleState), x ∈ L → P (L.foldl f st) := by
  intro L
  induction L with
  | nil => intro st h; cases h
  | cons a as ih =>
    intro st hmem
    rcases List.mem_cons.mp hmem with h | h
    · subst h
      exact foldl_preserve hpres as (f st x) (hest st)
    · exact ih (f st a) h

/-- Once a feed URL is backlog-done in the loaded document and the
cycle does not prune, the cycle keeps it done and its backlog logic
never executes. -/
theorem poll_backlog_once (env : Env) (now : Nat) (cfg : Config)
    (d : PersistedDoc) (u : String) (hd : u ∈ d.backlog_done)
    (hrm : removedFeeds cfg d = []) :
    u ∈ (metube_poll_feeds env now cfg d).backlog_done ∧
      u ∉ (metube_poll_feeds env now cfg d).backlogRuns := by
  by_cases hg : pyRstripSlash cfg.metube_url = "" ∨ normalizeFeeds cfg.rawFeeds = []
  · rw [poll_guard_fail env now cfg d hg]
    exact ⟨hd, by simp [hydrate]⟩
  · have hg' : guardPass cfg := ⟨fun a => hg (Or.inl a), fun b => hg (Or.inr b)⟩
    rw [poll_guard_pass env now cfg d hg', pollInit_no_prune cfg d hrm]
    show u ∈ (pollPasses env now cfg (hydrate d)).backlog_done ∧
      u ∉ (pollPasses env now cfg (hydrate d)).backlogRuns
    unfold pollPasses
    apply foldl_preserve
      (P := fun st => u ∈ st.backlog_done ∧ u ∉ st.backlogRuns)
      (fun st x h => by
        obtain ⟨_, _, h3, h4⟩ := incrementalStep_frame env cfg.quality now st x
        rw [h3, h4]
        exact h)
    apply foldl_preserve
      (fun st x h => backlogStep_done_inv env cfg.quality now st x u h)
    exact ⟨hd, by simp [hydrate]⟩

/-- If a feed's own backlog step always marks it done, the whole cycle
ends with it marked done. -/
theorem poll_backlog_marked (env : Env) (now : Nat) (cfg : Config)
    (d : PersistedDoc) (f : FeedDescriptor) (hg : guardPass cfg)
    (hf : f ∈ normalizeFeeds cfg.rawFeeds)
    (hest : ∀ st : CycleState, f.url ∈ (backlogStep env cfg.quality now st f).backlog_done) :
    f.url ∈ (metube_poll_feeds env now cfg d).backlog_done := by
  rw [poll_guard_pass env now cfg d hg]
  show f.url ∈ (pollPasses env now cfg (pollInit cfg d)).backlog_done
  unfold pollPasses
  apply foldl_preserve (P := fun st => f.url ∈ st.backlog_done)
    (fun st x h => by
      rw [(incrementalStep_frame env cfg.quality now st x).2.2.1]
      exact h)
  exact foldl_establish_at (P := fun st => f.url ∈ st.backlog_done) f
    (fun st y h => by
      rcases backlogStep_backlog_done env cfg.quality now st y with he | he
      · rw [he]; exact h
      · rw [he]; exact List.mem_append_left _ h)
    hest (normalizeFeeds cfg.rawFeeds) (pollInit cfg d) hf

/-! ## Freshness of the statistics -/

theorem backlogStep_fresh_preserve (env : Env) (q : String) (now : Nat)
    (st : CycleState) (f : FeedDescriptor) (u : String)
    (h : (statLookup st.feed_stats u).map FeedStat.last_fetched = some now) :
    (statLookup (backlogStep env q now st f).feed_stats u).map
      FeedStat.last_fetched = some now := by
  obtain ⟨k, hk⟩ := backlogStep_feed_stats env q now st f
  rw [hk]
  exact update_fresh_preserve now st.feed_stats u f.url k h

theorem incrementalStep_fresh_preserve (env : Env) (q : String) (now : Nat)
    (st : CycleState) (f : FeedDescriptor) (u : String)
    (h : (statLookup st.feed_stats u).map FeedStat.last_fetched = some now) :
    (statLookup (incrementalStep env q now st f).feed_stats u).map
      FeedStat.last_fetched = some now := by
  rcases incrementalStep_feed_stats env q now st f with he | ⟨k, hk⟩
  · rw [he]; exact h
  · rw [hk]
    exact update_fresh_preserve now st.feed_stats u f.url k h

theorem backlogStep_fresh_self (env : Env) (q : String) (now : Nat)
    (st : CycleState) (f : FeedDescriptor) :
    (statLookup (backlogStep env q now st f).feed_stats f.url).map
      FeedStat.last_fetched = some now := by
  obtain ⟨k, hk⟩ := backlogStep_feed_stats env q now st f
  rw [hk]
  exact update_fresh_self now st.feed_stats f.url _

/-- Every configured feed ends a (non-short-circuited) cycle with a
stats entry stamped with this cycle's time. -/
theorem poll_fresh (env : Env) (now : Nat) (cfg : Config) (d : PersistedDoc)
    (f : FeedDescriptor) (hg : guardPass cfg)
    (hf : f ∈ normalizeFeeds cfg.rawFeeds) :
    (statLookup (metube_poll_feeds env now cfg d).feed_stats f.url).map
      FeedStat.last_fetched = some now := by
  rw [poll_guard_pass env now cfg d hg]
  show (statLookup (pollPasses env now cfg (pollInit cfg d)).feed_stats f.url).map
    FeedStat.last_fetched = some now
  unfold pollPasses
  apply foldl_preserve
    (P := fun st =>
      (statLookup st.feed_stats f.url).map FeedStat.last_fetched = some now)
    (fun st x h => incrementalStep_fresh_preserve env cfg.quality now st x f.url h)
  exact foldl_establish_at
    (P := fun st =>
      (statLookup st.feed_stats f.url).map FeedStat.last_fetched = some now) f
    (fun st y h => backlogStep_fresh_preserve env cfg.quality now st y f.url h)
    (fun st => backlogStep_fresh_self env cfg.quality now st f)
    (normalizeFeeds cfg.rawFeeds) (pollInit cfg d) hf

/-! ## The save trace -/

/-- Under the guard clauses, the save trace of a cycle is the optional
prune save followed by exactly one end-of-cycle save of the full final
document. -/
theorem poll_saves_eq (env : Env) (now : Nat) (cfg : Config) (d : PersistedDoc)
    (hg : guardPass cfg) :
    (metube_poll_feeds env now cfg d).saves =
      (if removedFeeds cfg d = [] then [] else [prunePayload cfg d]) ++
      [{ urls := some (metube_poll_feeds env now cfg d).seen
         backlog_done := some (metube_poll_feeds env now cfg d).backlog_done
         feed_stats := some (metube_poll_feeds env now cfg d).feed_stats }] := by
  rw [poll_guard_pass env now cfg d hg]
  show (pollPasses env now cfg (pollInit cfg d)).saves ++ [_] = _
  rw [(pollPasses_frame env now cfg (pollInit cfg d)).1]
  have hinit : (pollInit cfg d).saves =
      if removedFeeds cfg d = [] then [] else [prunePayload cfg d] := by
    unfold pollInit hydrate pruneState
    split <;> rfl
  rw [hinit]
  rfl

/-! ## The claims -/

/-- C1: across all feeds and across any chain of poll cycles operating
on the same persisted state, none of which triggers the prune-time
seen-set reset, the submission call to the `/add` endpoint is invoked
for every video URL at most once: the concatenated submission trace has
pairwise-distinct URLs, a URL already in the loaded seen set is never
submitted again (entries already seen are skipped without a submission
attempt), and the persisted seen set contains every URL for which a
submission was attempted. -/
theorem metube_c1 (cycles : List (Env × Nat × Config)) (d : PersistedDoc)
    (hp : (runCycles cycles d).2.2 = false) :
    ((runCycles cycles d).1.map AddRequest.url).Nodup ∧
    (∀ u ∈ d.urls, ∀ r ∈ (runCycles cycles d).1, r.url ≠ u) ∧
    (∀ r ∈ (runCycles cycles d).1, r.url ∈ (runCycles cycles d).2.1.urls) := by
  obtain ⟨h1, h2, h3, _⟩ := runCycles_spec cycles d hp
  exact ⟨h1, h2, h3⟩

/-- C1 witness: two cycles over the same feed starting from a document
that has seen v1; the concatenated trace has pairwise-distinct URLs. -/
theorem metube_c1_witness :
    ((runCycles [(envTwoEntries, 7, cfgOneFeed), (envTwoEntries, 8, cfgOneFeed)]
        docV1).1.map AddRequest.url).Nodup :=
  (metube_c1 [(envTwoEntries, 7, cfgOneFeed), (envTwoEntries, 8, cfgOneFeed)]
    docV1 (by decide)).1

/-- C2: the video URL is marked seen before the submission attempt, so
in a cycle whose every submission is rejected or fails in transport,
every attempted URL still ends in the seen set, no feed's `total_sent`
changes, and a following cycle (absent pruning) never attempts any of
those URLs again. -/
theorem metube_c2 (env env' : Env) (now now' : Nat) (cfg cfg' : Config)
    (d : PersistedDoc)
    (hrej : ∀ v, submitAccepted (env.submit v) = false)
    (hnp : (metube_poll_feeds env now cfg d).pruned = false)
    (hnp' : (metube_poll_feeds env' now' cfg'
      (metube_poll_feeds env now cfg d).doc).pruned = false) :
    (∀ r ∈ (metube_poll_feeds env now cfg d).subs,
        r.url ∈ (metube_poll_feeds env now cfg d).seen) ∧
    (∀ u, totalOf (metube_poll_feeds env now cfg d).feed_stats u =
        totalOf d.feed_stats u) ∧
    (∀ r ∈ (metube_poll_feeds env now cfg d).subs,
      ∀ r' ∈ (metube_poll_feeds env' now' cfg'
          (metube_poll_feeds env now cfg d).doc).subs,
        r'.url ≠ r.url) := by
  refine ⟨poll_subs_seen env now cfg d,
    fun u => poll_totalOf_rej env now cfg d hrej hnp u, ?_⟩
  intro r hr r' hr'
  obtain ⟨new', e', u', nd', fr'⟩ := poll_no_prune_spec env' now' cfg' _ hnp'
  rw [u'] at hr'
  obtain ⟨l, hl, rfl⟩ := List.mem_map.mp hr'
  show l ≠ r.url
  intro hlr
  apply fr' l hl
  rw [hlr]
  exact poll_subs_seen env now cfg d r hr

/-- C2 witness: a feed serving two fresh entries against an endpoint
answering 503 leaves the feed's running total unchanged. -/
theorem metube_c2_witness :
    totalOf (metube_poll_feeds envReject503 7 cfgOneFeed emptyDoc).feed_stats
        "https://x/feed" =
      totalOf emptyDoc.feed_stats "https://x/feed" :=
  (metube_c2 envReject503 envReject503 7 8 cfgOneFeed cfgOneFeed emptyDoc
    (fun v => rfl) (by decide) (by decide)).2.1 "https://x/feed"

/-- C3 counterexample: one feed with an RSS backlog whose fetch answers
HTTP 500 on the first cycle.  The backlog branch executes on cycle 1
(it is logged in the backlog-run trace) yet the feed is NOT marked
backlog-done, and on cycle 2 — same feed URL, unchanged — the backlog
branch executes again, refuting both "marked backlog-done regardless of
outcome" and "executes on exactly one cycle". -/
theorem metube_c3_counterexample :
    (metube_poll_feeds envFetch500 1 cfgRssBacklog emptyDoc).backlogRuns =
        ["https://f"] ∧
    (metube_poll_feeds envFetch500 1 cfgRssBacklog emptyDoc).backlog_done = [] ∧
    (metube_poll_feeds envFetchOk 2 cfgRssBacklog
        (metube_poll_feeds envFetch500 1 cfgRssBacklog emptyDoc).doc).backlogRuns =
      ["https://f"] := by decide

/-- C3 as amended: (i) once a feed URL is backlog-done, a cycle that
does not prune keeps it done and never executes its backlog logic
again; (ii) a playlist backlog (source different from the feed URL) is
always marked done after its step, regardless of submission outcomes;
(iii) an RSS backlog whose fetch returns HTTP 200 and parses is marked
done, even if every individual submission fails; but (iv) an RSS
backlog whose fetch or parse fails is NOT marked done — the backlog
remains eligible and is retried on the next cycle. -/
theorem metube_c3_amended :
    (∀ (env : Env) (now : Nat) (cfg : Config) (d : PersistedDoc) (u : String),
      u ∈ d.backlog_done → removedFeeds cfg d = [] →
      u ∈ (metube_poll_feeds env now cfg d).backlog_done ∧
        u ∉ (metube_poll_feeds env now cfg d).backlogRuns) ∧
    (∀ (env : Env) (now : Nat) (cfg : Config) (d : PersistedDoc)
        (f : FeedDescriptor),
      guardPass cfg → f ∈ normalizeFeeds cfg.rawFeeds →
      pyStrip (orEmpty f.backlog_playlist_url) ≠ "" →
      pyStrip (orEmpty f.backlog_playlist_url) ≠ f.url →
      f.url ∈ (metube_poll_feeds env now cfg d).backlog_done) ∧
    (∀ (env : Env) (now : Nat) (cfg : Config) (d : PersistedDoc)
        (f : FeedDescriptor) (body : String) (es : List Entry),
      guardPass cfg → f ∈ normalizeFeeds cfg.rawFeeds →
      pyStrip (orEmpty f.backlog_playlist_url) = f.url → f.url ≠ "" →
      env.fetch f.url = .response 200 body → env.parse body = some es →
      f.url ∈ (metube_poll_feeds env now cfg d).backlog_done) ∧
    (∀ (env : Env) (q : String) (now : Nat) (st : CycleState)
        (f : FeedDescriptor),
      pyStrip (orEmpty f.backlog_playlist_url) = f.url →
      (env.fetch f.url = .transportError ∨
        (∃ s b, env.fetch f.url = .response s b ∧ s ≠ 200) ∨
        (∃ b, env.fetch f.url = .response 200 b ∧ env.parse b = none)) →
      (backlogStep env q now st f).backlog_done = st.backlog_done) := by
  refine ⟨?_, ?_, ?_, ?_⟩
  · intro env now cfg d u hd hrm
    exact poll_backlog_once env now cfg d u hd hrm
  · intro env now cfg d f hg hf hbp hne
    exact poll_backlog_marked env now cfg d f hg hf
      (fun st => backlogStep_marks_playlist env cfg.quality now st f hbp hne)
  · intro env now cfg d f body es hg hf hbp hne hfetch hparse
    exact poll_backlog_marked env now cfg d f hg hf
      (fun st => backlogStep_marks_rss_success env cfg.quality now st f body es
        hbp hne hfetch hparse)
  · intro env q now st f hbp hfail
    exact backlogStep_rss_fail_no_mark env q now st f hbp hfail

/-- C3 witness: the RSS backlog whose fetch succeeds ends its cycle
marked backlog-done. -/
theorem metube_c3_witness :
    ("https://f" : String) ∈
      (metube_poll_feeds envFetchOk 2 cfgRssBacklog emptyDoc).backlog_done :=
  metube_c3_amended.2.2.1 envFetchOk 2 cfgRssBacklog emptyDoc
    { url := "https://f", name := "https://f",
      backlog_playlist_url := some "https://f" }
    "B3" [{ link := some "https://x/y" }]
    (by decide) (by decide) (by decide) (by decide) rfl rfl

/-- C4 counterexample: a fetch answering HTTP 201 — a 2xx status —
with a parseable body holding one fresh entry.  The claim predicts the
body is parsed and the entry submitted; the code treats any non-200
status as a fetch failure, so no submission happens and a
zero-submission stats update is recorded. -/
theorem metube_c4_counterexample :
    (metube_poll_feeds envStatus201 5 cfgOneFeed emptyDoc).subs = [] ∧
    statLookup (metube_poll_feeds envStatus201 5 cfgOneFeed emptyDoc).feed_stats
      "https://x/feed" = some { last_fetched := 5, total_sent := 0 } := by decide

/-- C4 as amended: for every incremental fetch, only a response with
status exactly 200 is parsed as syndication content; a transport
failure, any non-200 status (2xx included), or a parse failure is
handled as a fetch failure — a zero-submission stats update for that
feed and nothing else, so the orchestrator continues with the next
feed.  On a 200 response that parses, the entries are processed against
the seen set. -/
theorem metube_c4_amended :
    (∀ (env : Env) (q : String) (now : Nat) (st : CycleState)
        (f : FeedDescriptor),
      f.url ≠ "" →
      (env.fetch f.url = .transportError ∨
        (∃ s b, env.fetch f.url = .response s b ∧ s ≠ 200) ∨
        (∃ b, env.fetch f.url = .response 200 b ∧ env.parse b = none)) →
      incrementalStep env q now st f =
        { st with
          feed_stats := metube_update_feed_stats now st.feed_stats f.url 0 }) ∧
    (∀ (env : Env) (q : String) (now : Nat) (st : CycleState)
        (f : FeedDescriptor) (body : String) (es : List Entry),
      f.url ≠ "" →
      env.fetch f.url = .response 200 body → env.parse body = some es →
      incrementalStep env q now st f =
        { st with
          seen := (es.foldl (processEntry env q)
            { seen := st.seen, sent := 0, subs := st.subs }).seen
          subs := (es.foldl (processEntry env q)
            { seen := st.seen, sent := 0, subs := st.subs }).subs
          feed_stats := metube_update_feed_stats now st.feed_stats f.url
            (es.foldl (processEntry env q)
              { seen := st.seen, sent := 0, subs := st.subs }).sent }) := by
  constructor
  · intro env q now st f hne hfail
    unfold incrementalStep
    dsimp only
    rw [if_neg hne]
    rcases hfail with h | ⟨s, b, h, hs⟩ | ⟨b, h, hpn⟩
    · rw [h]
    · rw [h]
      dsimp only
      rw [if_pos hs]
    · rw [h]
      dsimp only
      rw [if_neg (by simp), hpn]
  · intro env q now st f body es hne hfetch hparse
    unfold incrementalStep
    dsimp only
    rw [if_neg hne, hfetch]
    dsimp only
    rw [if_neg (by simp), hparse]

/-- C4 witness: a transport-free HTTP 500 on the incremental fetch is
exactly a zero-submission stats update. -/
theorem metube_c4_witness :
    incrementalStep envFetch500 "best" 3 (hydrate emptyDoc)
        { url := "https://fA", name := "A", backlog_playlist_url := none } =
      { hydrate emptyDoc with
        feed_stats := metube_update_feed_stats 3 (hydrate emptyDoc).feed_stats
          "https://fA" 0 } :=
  metube_c4_amended.1 envFetch500 "best" 3 (hydrate emptyDoc)
    { url := "https://fA", name := "A", backlog_playlist_url := none }
    (by decide) (Or.inr (Or.inl ⟨500, "", rfl, by decide⟩))

/-- C5: from a persisted state that has seen v1, a feed serving entries
v1 then v2 with quality "best" produces exactly one submission — the
POST body for v2 with quality "best" and format "mp4" — a seen set of
v1 and v2, and a `total_sent` of 1 for the feed. -/
theorem metube_c5 :
    (metube_poll_feeds envTwoEntries 7 cfgOneFeed docV1).subs =
      [{ url := "https://x/v2", quality := "best", format := "mp4" }] ∧
    (metube_poll_feeds envTwoEntries 7 cfgOneFeed docV1).seen =
      ["https://x/v1", "https://x/v2"] ∧
    statLookup (metube_poll_feeds envTwoEntries 7 cfgOneFeed docV1).feed_stats
      "https://x/feed" = some { last_fetched := 7, total_sent := 1 } := by decide

/-- C6: whenever the previously-tracked feed URLs minus the current
configuration are non-empty, the cycle's very first save is the prune
payload: the seen set cleared entirely, and the backlog markers and
stats restricted to the surviving feed URLs — determined by the
configuration and the loaded document alone, before either pass runs. -/
theorem metube_c6 (env : Env) (now : Nat) (cfg : Config) (d : PersistedDoc)
    (hg : guardPass cfg) (hrm : removedFeeds cfg d ≠ []) :
    (metube_poll_feeds env now cfg d).saves.head? = some (prunePayload cfg d) ∧
    prunePayload cfg d =
      { urls := some []
        backlog_done :=
          some (d.backlog_done.filter (fun u => u ∈ currentFeedUrls cfg))
        feed_stats :=
          some (d.feed_stats.filter (fun p => p.1 ∈ currentFeedUrls cfg)) } := by
  refine ⟨?_, rfl⟩
  rw [poll_saves_eq env now cfg d hg, if_neg hrm]
  rfl

/-- C6 witness: a stale document whose only tracked feed vanished is
pruned and the pruned state saved first. -/
theorem metube_c6_witness :
    (metube_poll_feeds envTwoEntries 9 cfgOneFeed docStale).saves.head? =
      some (prunePayload cfgOneFeed docStale) :=
  (metube_c6 envTwoEntries 9 cfgOneFeed docStale (by decide) (by decide)).1

/-- C7: feed A's fetch fails with HTTP 500 while feed B serves two
fresh entries whose submissions are accepted: the cycle completes, A's
stats show `total_sent` incremented by 0 with `last_fetched` updated,
B's show 2, exactly two submissions happen, and both feeds' stats are
persisted together in the single end-of-cycle write. -/
theorem metube_c7 :
    statLookup (metube_poll_feeds envPartial 3 cfgTwoFeeds emptyDoc).feed_stats
      "https://fA" = some { last_fetched := 3, total_sent := 0 } ∧
    statLookup (metube_poll_feeds envPartial 3 cfgTwoFeeds emptyDoc).feed_stats
      "https://fB" = some { last_fetched := 3, total_sent := 2 } ∧
    (metube_poll_feeds envPartial 3 cfgTwoFeeds emptyDoc).saves =
      [{ urls := some ["https://x/w1", "https://x/w2"]
         backlog_done := some []
         feed_stats := some
           [("https://fA", { last_fetched := 3, total_sent := 0 }),
            ("https://fB", { last_fetched := 3, total_sent := 2 })] }] ∧
    (metube_poll_feeds envPartial 3 cfgTwoFeeds emptyDoc).subs.length = 2 := by
  decide

/-- C8: every payload ever passed to the store during a cycle carries
all three fields, and when the guard clauses pass the save trace is
exactly the optional prune save followed by one end-of-cycle save of
the full final document — one persist after both passes, never
incremental per feed; when the guards fail nothing is saved. -/
theorem metube_c8 (env : Env) (now : Nat) (cfg : Config) (d : PersistedDoc) :
    (∀ p ∈ (metube_poll_feeds env now cfg d).saves,
        p.urls.isSome ∧ p.backlog_done.isSome ∧ p.feed_stats.isSome) ∧
    (guardPass cfg →
      (metube_poll_feeds env now cfg d).saves =
        (if removedFeeds cfg d = [] then [] else [prunePayload cfg d]) ++
        [{ urls := some (metube_poll_feeds env now cfg d).seen
           backlog_done := some (metube_poll_feeds env now cfg d).backlog_done
           feed_stats := some (metube_poll_feeds env now cfg d).feed_stats }]) ∧
    (¬guardPass cfg → (metube_poll_feeds env now cfg d).saves = []) := by
  have hfail : ∀ (h : ¬guardPass cfg), metube_poll_feeds env now cfg d = hydrate d := by
    intro h
    apply poll_guard_fail
    by_cases ha : pyRstripSlash cfg.metube_url = ""
    · exact Or.inl ha
    · by_cases hb : normalizeFeeds cfg.rawFeeds = []
      · exact Or.inr hb
      · exact absurd ⟨ha, hb⟩ h
  refine ⟨?_, fun hg => poll_saves_eq env now cfg d hg, fun hg => by rw [hfail hg]; rfl⟩
  intro p hp
  by_cases hg : guardPass cfg
  · rw [poll_saves_eq env now cfg d hg] at hp
    rcases List.mem_append.mp hp with h | h
    · split at h
      · cases h
      · rw [List.mem_singleton] at h
        subst h
        exact ⟨rfl, rfl, rfl⟩
    · rw [List.mem_singleton] at h
      subst h
      exact ⟨rfl, rfl, rfl⟩
  · rw [hfail hg] at hp
    cases hp

/-- C8 witness: the non-pruning scenario cycle saves exactly once, at
the end, with all three fields. -/
theorem metube_c8_witness :
    (metube_poll_feeds envTwoEntries 7 cfgOneFeed docV1).saves =
      (if removedFeeds cfgOneFeed docV1 = [] then []
        else [prunePayload cfgOneFeed docV1]) ++
      [{ urls := some (metube_poll_feeds envTwoEntries 7 cfgOneFeed docV1).seen
         backlog_done :=
           some (metube_poll_feeds envTwoEntries 7 cfgOneFeed docV1).backlog_done
         feed_stats :=
           some (metube_poll_feeds envTwoEntries 7 cfgOneFeed docV1).feed_stats }] :=
  (metube_c8 envTwoEntries 7 cfgOneFeed docV1).2.1 (by decide)

/-- C9: the unconditional stats update in the backlog pass guarantees
that after any cycle that reaches the passes, every configured feed URL
is a key of `feed_stats` whose `last_fetched` is this cycle's
timestamp, whatever the environment did (in particular even if the
feed's incremental fetch failed). -/
theorem metube_c9 (env : Env) (now : Nat) (cfg : Config) (d : PersistedDoc)
    (f : FeedDescriptor) (hg : guardPass cfg)
    (hf : f ∈ normalizeFeeds cfg.rawFeeds) :
    (statLookup (metube_poll_feeds env now cfg d).feed_stats f.url).map
      FeedStat.last_fetched = some now :=
  poll_fresh env now cfg d f hg hf

/-- C9 witness: feed A, whose fetch answers HTTP 500, still ends the
cycle with a stats entry stamped with the cycle's time. -/
theorem metube_c9_witness :
    (statLookup (metube_poll_feeds envPartial 3 cfgTwoFeeds emptyDoc).feed_stats
      "https://fA").map FeedStat.last_fetched = some 3 :=
  metube_c9 envPartial 3 cfgTwoFeeds emptyDoc
    { url := "https://fA", name := "https://fA", backlog_playlist_url := none }
    (by decide) (by decide)

/-- C10: the normalizer strips whitespace from the url, name and
backlog fields; it drops a dict whose url is missing, empty or
whitespace-only and a legacy string that is empty or whitespace-only;
a legacy string's display name is its trimmed URL; and a blank backlog
field is omitted (never kept as an empty string). -/
theorem metube_c10 :
    (∀ (u n b : Option String) (d : FeedDescriptor),
      metube_normalize_feed (.dict u n b) = some d →
      d.url = pyStrip (orEmpty u) ∧
      d.name = pyStrip (pyOrStr (pyOrStr (orEmpty n) (pyStrip (orEmpty u))) "") ∧
      (pyStrip (orEmpty b) = "" → d.backlog_playlist_url = none) ∧
      (pyStrip (orEmpty b) ≠ "" →
        d.backlog_playlist_url = some (pyStrip (orEmpty b)))) ∧
    (∀ (u n b : Option String), pyStrip (orEmpty u) = "" →
      metube_normalize_feed (.dict u n b) = none) ∧
    (∀ s : String, pyStrip s = "" → metube_normalize_feed (.str s) = none) ∧
    (∀ s : String, pyStrip s ≠ "" → metube_normalize_feed (.str s) =
      some { url := pyStrip s, name := pyStrip s,
             backlog_playlist_url := none }) := by
  refine ⟨?_, ?_, ?_, ?_⟩
  · intro u n b d h
    unfold metube_normalize_feed at h
    dsimp only at h
    by_cases hurl : pyStrip (orEmpty u) = ""
    · rw [if_pos hurl] at h
      cases h
    · rw [if_neg hurl] at h
      have hd := Option.some.inj h
      subst hd
      refine ⟨rfl, rfl, ?_, ?_⟩
      · intro hb
        dsimp only
        rw [if_pos hb]
      · intro hb
        dsimp only
        rw [if_neg hb]
  · intro u n b h
    unfold metube_normalize_feed
    dsimp only
    rw [if_pos h]
  · intro s h
    unfold metube_normalize_feed
    dsimp only
    rw [if_pos h]
  · intro s h
    unfold metube_normalize_feed
    dsimp only
    rw [if_neg h]

/-- C10 witness: a padded legacy string is trimmed into url and name,
and a whitespace-only dict url is dropped. -/
theorem metube_c10_witness :
    metube_normalize_feed (.str "  https://u  ") =
      some { url := pyStrip "  https://u  ", name := pyStrip "  https://u  ",
             backlog_playlist_url := none } ∧
    metube_normalize_feed (.dict (some "   ") (some "x") none) = none :=
  ⟨metube_c10.2.2.2 "  https://u  " (by decide),
   metube_c10.2.1 (some "   ") (some "x") none (by decide)⟩

end MeTube
